import Mathlib

/-!
Verification development for the astrocyte_db_prototype event pipeline.

This file gives a shallow embedding of the core of the repository:
the event model and its Redis wire serialization (src/types.py), the
CEP engine (src/leaflet_domain.py: buffer, pruning, correlation rules,
multi-event creation, worker loop) and the archival / retention layer
(src/storage_manager.py, src/models.py).

Modelling conventions:
* 128-bit UUIDs are natural numbers; their canonical string form
  (Python str(UUID) / UUID(s)) is modelled by a concrete hexadecimal
  codec `uuidChars` / `uuidParseChars` (modulo scalar formatting:
  Python pads with zeros and hyphens, which does not affect
  invertibility or comma-freeness).
* timestamps (datetime) are integer microsecond counts, datetime's
  internal resolution; durations are in the same unit; float event
  values are rationals.  Library scalar codecs whose only relevant property is
  exact invertibility (datetime.isoformat/fromisoformat, str/float,
  json.dumps/json.loads on metadata and lineage dictionaries) are
  modelled as tagged wire values: a parse of one of these classes
  succeeds exactly on a value carrying the corresponding tag.
* Python dicts are association lists with unique keys; lookup finds
  the first binding.
* fallible decoding returns Except over the spec's error-kind
  taxonomy.
-/

/-- 128-bit event identifier (uuid4), modelled as a natural number. -/
abbrev UUID := Nat

/-- Absolute instant, modelled in integer microseconds (the internal
resolution of Python datetime, so isoformat instants are exactly
integers in this unit; float durations such as 2.0 s are the exact
multiples 2000000). -/
abbrev Time := Int

/-- Closed event-type tag set from src/types.py (EventType). -/
inductive EventType where
  | typeA
  | typeB
  | typeC
  | multiOriginated
deriving DecidableEq, Repr

/-- EventType.value: the wire string of each tag (src/types.py). -/
def EventType.val : EventType → String
  | .typeA => "A"
  | .typeB => "B"
  | .typeC => "C"
  | .multiOriginated => "MULTI_ORIGINATED"

/-- EventType(s): parse a wire string back to a tag; ValueError = none. -/
def EventType.parseVal (s : String) : Option EventType :=
  if s = "A" then some .typeA
  else if s = "B" then some .typeB
  else if s = "C" then some .typeC
  else if s = "MULTI_ORIGINATED" then some .multiOriginated
  else none

/-- Metadata scalar: string | int | float (src/types.py metadata values). -/
inductive Scalar where
  | s (v : String)
  | i (v : Int)
  | f (v : ℚ)
deriving DecidableEq, Repr

/-- One lineage entry: the dict {event_id, timestamp, value} built in
LeafletDomain._create_multi_originated_event; str(event_id) and
timestamp.isoformat() are injective, so the entry is modelled by the
underlying values. -/
structure LineageEntry where
  event_id : UUID
  timestamp : Time
  value : ℚ
deriving DecidableEq, Repr

/-- MonoOriginatedEvent (src/types.py). -/
structure MonoOriginatedEvent where
  event_id : UUID
  timestamp : Time
  source_stream : String
  event_type : EventType
  value : ℚ
  metadata : List (String × Scalar)
deriving DecidableEq, Repr

/-- MultiOriginatedEvent (src/types.py). -/
structure MultiOriginatedEvent where
  event_id : UUID
  timestamp : Time
  event_type : EventType
  source_events : List UUID
  correlation_rule : String
  integrated_value : ℚ
  confidence : ℚ
  lineage : List (String × LineageEntry)
deriving DecidableEq, Repr

/-- CorrelationWindow (src/types.py): rule parameters.  The pydantic
field constraints are 0.1 s ≤ duration_seconds ≤ 60 s (durations here
are in the integer microsecond unit of Time) and
2 ≤ min_events ≤ 10; required_event_types is a set, modelled as a
list whose membership relation is the set. -/
structure CorrelationWindow where
  duration_seconds : Int
  required_event_types : List EventType
  min_events : Nat
deriving DecidableEq, Repr

/-! Configuration constants (src/config.py). -/

/-- config.CORRELATION_WINDOW_SECONDS = 2.0 s, in microseconds. -/
def CORRELATION_WINDOW_SECONDS : Int := 2000000

/-- config.MAX_PENDING_EVENTS = 100 (deque maxlen). -/
def MAX_PENDING_EVENTS : Nat := 100

/-- config.REDIS_TTL_SECONDS = 300. -/
def REDIS_TTL_SECONDS : Int := 300

/-- config.MAX_EVENTS_PER_ARCHIVE_BATCH = 1000. -/
def MAX_EVENTS_PER_ARCHIVE_BATCH : Nat := 1000

/-! ## UUID string codec

Python writes ids with str(uuid) and parses with UUID(s); the model
uses an executable hexadecimal codec on character lists. -/

/-- One hexadecimal digit character. -/
def hexChar : Nat → Char
  | 0 => '0' | 1 => '1' | 2 => '2' | 3 => '3'
  | 4 => '4' | 5 => '5' | 6 => '6' | 7 => '7'
  | 8 => '8' | 9 => '9' | 10 => 'a' | 11 => 'b'
  | 12 => 'c' | 13 => 'd' | 14 => 'e' | 15 => 'f'
  | _ => '0'

/-- Value of a hexadecimal digit character; none on a non-hex character. -/
def hexCharVal (c : Char) : Option Nat :=
  if c = '0' then some 0 else if c = '1' then some 1
  else if c = '2' then some 2 else if c = '3' then some 3
  else if c = '4' then some 4 else if c = '5' then some 5
  else if c = '6' then some 6 else if c = '7' then some 7
  else if c = '8' then some 8 else if c = '9' then some 9
  else if c = 'a' then some 10 else if c = 'b' then some 11
  else if c = 'c' then some 12 else if c = 'd' then some 13
  else if c = 'e' then some 14 else if c = 'f' then some 15
  else none

/-- Little-endian base-16 digits of n, with explicit fuel for
structural recursion (fuel n is always enough). -/
def hexDigitsAux : Nat → Nat → List Nat
  | 0, _ => []
  | _ + 1, 0 => []
  | f + 1, n + 1 => ((n + 1) % 16) :: hexDigitsAux f ((n + 1) / 16)

/-- Little-endian base-16 digits of n. -/
def hexDigits (n : Nat) : List Nat := hexDigitsAux n n

/-- Canonical (big-endian, unpadded) hexadecimal character form of a
UUID value; the image of Python str(uuid) modulo formatting. -/
def uuidChars (n : UUID) : List Char :=
  if n = 0 then ['0'] else ((hexDigits n).reverse.map hexChar)

/-- Map a partial function over a list, failing if any element fails. -/
def mapOpt (f : α → Option β) : List α → Option (List β)
  | [] => some []
  | a :: as =>
    match f a, mapOpt f as with
    | some b, some bs => some (b :: bs)
    | _, _ => none

/-- Parse a hexadecimal character form back to a UUID value; the model
of Python UUID(s), which raises ValueError on an empty or non-hex
string. -/
def uuidParseChars (cs : List Char) : Option UUID :=
  match cs with
  | [] => none
  | _ =>
    match mapOpt hexCharVal cs with
    | none => none
    | some ds => some (Nat.ofDigits 16 ds.reverse)

/-! ## Comma join / split for the source_events field

Python writes ",".join(str(u) for u in source_events) and parses with
s.split(","); these are modelled on character lists. -/

/-- ",".join on character lists. -/
def joinCommaL : List (List Char) → List Char
  | [] => []
  | [x] => x
  | x :: xs => x ++ ',' :: joinCommaL xs

/-- s.split(",") on character lists: Python semantics, so the empty
string yields [""]. -/
def splitOnComma : List Char → List (List Char)
  | [] => [[]]
  | c :: cs =>
    let r := splitOnComma cs
    if c = ',' then [] :: r
    else
      match r with
      | [] => [[c]]
      | h :: t => (c :: h) :: t

/-! ## Wire form

Each Redis stream entry is a map from string keys to string values.
Values produced by library codecs whose exact text is irrelevant
(invertible scalar formatting) are tagged atoms; values manipulated at
string level by the repository (ids and the comma-joined id list) are
concrete character data carried by strV. -/

/-- A wire value: either a raw string or the image of an invertible
library scalar codec (isoformat timestamp, str(float) numeric,
json.dumps of a metadata dict, json.dumps of a lineage dict). -/
inductive WireVal where
  | strV (s : List Char)
  | tsV (t : Time)
  | numV (x : ℚ)
  | metaV (m : List (String × Scalar))
  | linV (l : List (String × LineageEntry))
deriving DecidableEq, Repr

/-- A Redis entry field map (Python dict, unique keys). -/
abbrev Wire := List (String × WireVal)

/-- data.get(k) / data[k]: first binding of k. -/
def wget (w : Wire) (k : String) : Option WireVal :=
  (w.find? (fun p => p.1 = k)).map (·.2)

/-- data[k] = v: replace the binding in place if present, else append. -/
def wset (w : Wire) (k : String) (v : WireVal) : Wire :=
  if w.any (fun p => p.1 = k) then
    w.map (fun p => if p.1 = k then (k, v) else p)
  else w ++ [(k, v)]

/-- Python truthiness of a wire value as used by
`if data.get("metadata")`: only the empty string is falsy (library
codec images are never empty strings). -/
def WireVal.truthy : WireVal → Bool
  | .strV s => !s.isEmpty
  | _ => true

/-- Error kinds of the design (spec section 7); decode failures are
MalformedRecord. -/
inductive ErrKind where
  | transient
  | malformedRecord
  | permanent
  | shuttingDown
  | config
deriving DecidableEq, Repr

/-- MonoOriginatedEvent.to_redis_dict (src/types.py): string fields in
source order. -/
def MonoOriginatedEvent.to_redis_dict (e : MonoOriginatedEvent) : Wire :=
  [ ("event_id", .strV (uuidChars e.event_id)),
    ("timestamp", .tsV e.timestamp),
    ("source_stream", .strV e.source_stream.data),
    ("event_type", .strV e.event_type.val.data),
    ("value", .numV e.value),
    ("metadata", .metaV e.metadata) ]

/-- MonoOriginatedEvent.from_redis_dict (src/types.py): field-by-field
parse; any missing required field or failed scalar parse is a
MalformedRecord decode failure (Python KeyError / ValueError /
json.JSONDecodeError).  metadata is read with .get and defaults to {}
when missing or falsy. -/
def MonoOriginatedEvent.from_redis_dict (data : Wire) :
    Except ErrKind MonoOriginatedEvent := do
  let event_id ←
    match wget data "event_id" with
    | some (.strV s) =>
      match uuidParseChars s with
      | some u => pure u
      | none => throw .malformedRecord
    | _ => throw .malformedRecord
  let timestamp ←
    match wget data "timestamp" with
    | some (.tsV t) => pure t
    | _ => throw .malformedRecord
  let source_stream ←
    match wget data "source_stream" with
    | some (.strV s) => pure (String.mk s)
    | _ => throw .malformedRecord
  let event_type ←
    match wget data "event_type" with
    | some (.strV s) =>
      match EventType.parseVal (String.mk s) with
      | some t => pure t
      | none => throw .malformedRecord
    | _ => throw .malformedRecord
  let value ←
    match wget data "value" with
    | some (.numV x) => pure x
    | _ => throw .malformedRecord
  let metadata ←
    match wget data "metadata" with
    | none => pure []
    | some v =>
      if v.truthy then
        match v with
        | .metaV m => pure m
        | _ => throw .malformedRecord
      else pure []
  pure { event_id, timestamp, source_stream, event_type, value, metadata }

/-- MultiOriginatedEvent.to_redis_dict (src/types.py). -/
def MultiOriginatedEvent.to_redis_dict (e : MultiOriginatedEvent) : Wire :=
  [ ("event_id", .strV (uuidChars e.event_id)),
    ("timestamp", .tsV e.timestamp),
    ("event_type", .strV e.event_type.val.data),
    ("source_events", .strV (joinCommaL (e.source_events.map uuidChars))),
    ("correlation_rule", .strV e.correlation_rule.data),
    ("integrated_value", .numV e.integrated_value),
    ("confidence", .numV e.confidence),
    ("lineage", .linV e.lineage) ]

/-- MultiOriginatedEvent.from_redis_dict (src/types.py).  Note the
source: the wire event_type field is not read back; the decoded event
always carries the default tag MULTI_ORIGINATED. -/
def MultiOriginatedEvent.from_redis_dict (data : Wire) :
    Except ErrKind MultiOriginatedEvent := do
  let event_id ←
    match wget data "event_id" with
    | some (.strV s) =>
      match uuidParseChars s with
      | some u => pure u
      | none => throw .malformedRecord
    | _ => throw .malformedRecord
  let timestamp ←
    match wget data "timestamp" with
    | some (.tsV t) => pure t
    | _ => throw .malformedRecord
  let source_events ←
    match wget data "source_events" with
    | some (.strV s) =>
      match mapOpt uuidParseChars (splitOnComma s) with
      | some l => pure l
      | none => throw .malformedRecord
    | _ => throw .malformedRecord
  let correlation_rule ←
    match wget data "correlation_rule" with
    | some (.strV s) => pure (String.mk s)
    | _ => throw .malformedRecord
  let integrated_value ←
    match wget data "integrated_value" with
    | some (.numV x) => pure x
    | _ => throw .malformedRecord
  let confidence ←
    match wget data "confidence" with
    | some (.numV x) => pure x
    | _ => throw .malformedRecord
  let lineage ←
    match wget data "lineage" with
    | some (.linV l) => pure l
    | _ => throw .malformedRecord
  pure { event_id, timestamp, event_type := .multiOriginated, source_events,
         correlation_rule, integrated_value, confidence, lineage }

/-! ## CEP engine (src/leaflet_domain.py) -/

/-- LeafletDomain._init_correlation_rules: the two built-in rules, in
Python dict insertion order; every rule's duration is the domain's
window_seconds. -/
def correlationRules (windowSeconds : Int) : List (String × CorrelationWindow) :=
  [ ("type_A_and_B_within_window",
     { duration_seconds := windowSeconds,
       required_event_types := [.typeA, .typeB],
       min_events := 2 }),
    ("type_A_B_C_convergence",
     { duration_seconds := windowSeconds,
       required_event_types := [.typeA, .typeB, .typeC],
       min_events := 3 }) ]

/-- LeafletDomain._prune_expired_events: pop from the head while the
head's timestamp is strictly before now - window_seconds. -/
def prune_expired_events (windowSeconds : Int) (now : Time) :
    List MonoOriginatedEvent → List MonoOriginatedEvent
  | [] => []
  | e :: rest =>
    if e.timestamp < now - windowSeconds then
      prune_expired_events windowSeconds now rest
    else e :: rest

/-- deque(maxlen=MAX_PENDING_EVENTS).append: append at the tail,
evicting from the head when the bound is exceeded. -/
def capAppend (e : MonoOriginatedEvent) (b : List MonoOriginatedEvent) :
    List MonoOriginatedEvent :=
  let b' := b ++ [e]
  b'.drop (b'.length - MAX_PENDING_EVENTS)

/-- LeafletDomain.add_event: bounded append followed by pruning, with
now the wall-clock instant of the call. -/
def add_event (windowSeconds : Int) (now : Time) (e : MonoOriginatedEvent)
    (b : List MonoOriginatedEvent) : List MonoOriginatedEvent :=
  prune_expired_events windowSeconds now (capAppend e b)

/-- The `matching_events` list built inside
LeafletDomain.check_correlation: every buffered event whose type is
one of the rule's required types, in buffer order. -/
def matching_events (rule : CorrelationWindow)
    (b : List MonoOriginatedEvent) : List MonoOriginatedEvent :=
  b.filter (fun e => decide (e.event_type ∈ rule.required_event_types))

/-- Python dict update d[k] = v on an association list: overwrite in
place when the key is present, else append (insertion order kept). -/
def wupd (d : List (String × α)) (k : String) (v : α) : List (String × α) :=
  if d.any (fun p => p.1 = k) then
    d.map (fun p => if p.1 = k then (k, v) else p)
  else d ++ [(k, v)]

/-- LeafletDomain._create_multi_originated_event.  uuid4() and
datetime.now() defaults are passed explicitly as freshId and now.
The lineage dict comprehension keeps the first position of a source
stream and lets a later event with the same stream overwrite its
entry. -/
def create_multi_originated_event (source_events : List MonoOriginatedEvent)
    (rule_name : String) (freshId : UUID) (now : Time) :
    MultiOriginatedEvent :=
  { event_id := freshId,
    timestamp := now,
    event_type := .multiOriginated,
    source_events := source_events.map (·.event_id),
    correlation_rule := rule_name,
    integrated_value :=
      (source_events.map (·.value)).sum / (source_events.length : ℚ),
    confidence := min 1 ((source_events.length : ℚ) / 3),
    lineage := source_events.foldl
      (fun acc e =>
        wupd acc e.source_stream
          { event_id := e.event_id, timestamp := e.timestamp,
            value := e.value })
      [] }

/-- LeafletDomain.check_correlation: look the rule up, collect the
matching events and their found types, and emit when the found types
cover the required set and at least min_events events match. -/
def check_correlation (rules : List (String × CorrelationWindow))
    (b : List MonoOriginatedEvent) (rule_name : String)
    (freshId : UUID) (now : Time) : Option MultiOriginatedEvent :=
  match (rules.find? (fun p => p.1 = rule_name)).map (·.2) with
  | none => none
  | some rule =>
    let matching := matching_events rule b
    if (decide (∀ t ∈ rule.required_event_types,
          t ∈ matching.map (·.event_type))
        && decide (rule.min_events ≤ matching.length)) then
      some (create_multi_originated_event matching rule_name freshId now)
    else none

/-! ## CEP worker loop (process_stream_to_integration)

The worker reads decoded mono events, pushes each into the buffer and
then checks every correlation rule in dict order, appending each
emitted MultiEvent to the integrated stream.  The broker plumbing
(xreadgroup / xadd / xack) transports the events unchanged; the model
folds over the arriving events directly, with each arrival carrying
its wall-clock instant, and collects the emissions in order.  uuid4()
is modelled by a counter of fresh ids in the worker state. -/

structure WorkerState where
  buffer : List MonoOriginatedEvent
  nextId : UUID
deriving DecidableEq, Repr

/-- The inner rule loop: `for rule_name in leaflet.correlation_rules`,
collecting the emissions of check_correlation in rule order. -/
def checkAllRules (rules : List (String × CorrelationWindow))
    (b : List MonoOriginatedEvent) (now : Time) :
    List String → UUID → UUID × List (String × MultiOriginatedEvent)
  | [], nid => (nid, [])
  | name :: rest, nid =>
    match check_correlation rules b name nid now with
    | none => checkAllRules rules b now rest nid
    | some m =>
      ((checkAllRules rules b now rest (nid + 1)).1,
       (name, m) :: (checkAllRules rules b now rest (nid + 1)).2)

/-- One iteration of the worker body for one arriving event:
add_event, then every rule is checked once. -/
def processEvent (windowSeconds : Int) (now : Time)
    (e : MonoOriginatedEvent) (st : WorkerState) :
    WorkerState × List (String × MultiOriginatedEvent) :=
  let rules := correlationRules windowSeconds
  let buf := add_event windowSeconds now e st.buffer
  ({ buffer := buf,
     nextId := (checkAllRules rules buf now (rules.map (·.1)) st.nextId).1 },
   (checkAllRules rules buf now (rules.map (·.1)) st.nextId).2)

/-- The worker loop over a finite arrival trace (instant, event),
concatenating the emissions. -/
def processTrace (windowSeconds : Int) :
    List (Time × MonoOriginatedEvent) → WorkerState →
    WorkerState × List (String × MultiOriginatedEvent)
  | [], st => (st, [])
  | (now, e) :: rest, st =>
    ((processTrace windowSeconds rest (processEvent windowSeconds now e st).1).1,
     (processEvent windowSeconds now e st).2 ++
       (processTrace windowSeconds rest (processEvent windowSeconds now e st).1).2)

/-! ## The spec's selection policy (for the refinement claim C1)

The following definitions follow the spec's words, not the source:
"For each required type, pick the newest event of that type within
the window.  If |picked| < min_events, extend with the newest
remaining in-window events (any type in required_event_types) until
|S| = min_events, preferring the newest.  Tie-break on identical
timestamps by larger event_id lexicographically."  Python str(UUID)
is fixed-width, so lexicographic order on id strings is numeric order
on the 128-bit values. -/

/-- Spec order: x is strictly newer than y (later timestamp, ties by
larger event_id). -/
def specNewer (x y : MonoOriginatedEvent) : Prop :=
  y.timestamp < x.timestamp ∨
    (y.timestamp = x.timestamp ∧ y.event_id < x.event_id)

instance (x y : MonoOriginatedEvent) : Decidable (specNewer x y) := by
  unfold specNewer; infer_instance

/-- Modelled from the spec: the newest in-window event of one type. -/
def specNewestOfType (t : EventType) (b : List MonoOriginatedEvent) :
    Option MonoOriginatedEvent :=
  b.foldl
    (fun acc e =>
      if e.event_type = t then
        match acc with
        | none => some e
        | some a => if specNewer e a then some e else some a
      else acc)
    none

/-- Modelled from the spec: insertion sort placing newest first. -/
def specInsertDesc (e : MonoOriginatedEvent) :
    List MonoOriginatedEvent → List MonoOriginatedEvent
  | [] => [e]
  | x :: xs => if specNewer e x then e :: x :: xs else x :: specInsertDesc e xs

/-- Modelled from the spec: events sorted newest first. -/
def specSortDesc : List MonoOriginatedEvent → List MonoOriginatedEvent
  | [] => []
  | x :: xs => specInsertDesc x (specSortDesc xs)

/-- Modelled from the spec: the selected source set S of the spec's
deterministic selection policy, in selection order, when the rule is
satisfiable on the buffer. -/
def specSelect (rule : CorrelationWindow) (b : List MonoOriginatedEvent) :
    Option (List MonoOriginatedEvent) :=
  match mapOpt (fun t => specNewestOfType t b) rule.required_event_types with
  | none => none
  | some picked =>
    if rule.min_events ≤ picked.length then some picked
    else
      let pickedIds := picked.map (·.event_id)
      let remaining := (matching_events rule b).filter
        (fun e => decide (e.event_id ∉ pickedIds))
      if (matching_events rule b).length < rule.min_events then none
      else some (picked ++
        (specSortDesc remaining).take (rule.min_events - picked.length))

/-! ## Cold store and archiver (src/storage_manager.py, src/models.py) -/

/-- One row of event_archive_status (src/models.py EventArchiveStatus):
composite key (stream_name, redis_message_id) plus the raw event_id
string back-reference. -/
structure ArchiveCheckpoint where
  stream_name : String
  redis_message_id : Int
  event_id : WireVal
deriving DecidableEq, Repr

/-- The cold store (PostgreSQL): mono_events, multi_events and
event_archive_status tables as row lists. -/
structure ColdStore where
  monoRows : List MonoOriginatedEvent
  multiRows : List MultiOriginatedEvent
  checkpoints : List ArchiveCheckpoint
deriving DecidableEq, Repr

/-- The broker's stream contents: the four tracked streams, each an
ordered list of (redis message id, field map) entries. -/
structure RedisState where
  axon1 : List (Int × Wire)
  axon2 : List (Int × Wire)
  axon3 : List (Int × Wire)
  integrated : List (Int × Wire)
deriving DecidableEq, Repr

/-- StorageManager._store_mono_event: inject the stream name as
source_stream, decode, and append the row. -/
def store_mono_event (stream_name : String) (event_data : Wire)
    (db : ColdStore) : Except ErrKind ColdStore :=
  match MonoOriginatedEvent.from_redis_dict
      (wset event_data "source_stream" (.strV stream_name.data)) with
  | .error e => .error e
  | .ok e => .ok { db with monoRows := db.monoRows ++ [e] }

/-- StorageManager._store_multi_event: decode and append the row. -/
def store_multi_event (event_data : Wire) (db : ColdStore) :
    Except ErrKind ColdStore :=
  match MultiOriginatedEvent.from_redis_dict event_data with
  | .error e => .error e
  | .ok e => .ok { db with multiRows := db.multiRows ++ [e] }

/-- The archived-already test of StorageManager._archive_stream: a
checkpoint row with this (stream_name, redis_message_id) key exists. -/
def hasCk (db : ColdStore) (name : String) (mid : Int) : Bool :=
  db.checkpoints.any (fun c => c.stream_name = name ∧ c.redis_message_id = mid)

/-- The body of StorageManager._archive_stream for one stream entry:
skip if a checkpoint row with this (stream_name, redis_message_id)
already exists, else store the event row and add the checkpoint, whose
event_id field is the raw wire value of event_data["event_id"]
(KeyError aborts the batch when it is missing). -/
def archiveEntry (stream_name : String) (is_multi : Bool)
    (db : ColdStore) (entry : Int × Wire) : Except ErrKind ColdStore :=
  if hasCk db stream_name entry.1 then .ok db
  else
    match (if is_multi then store_multi_event entry.2 db
           else store_mono_event stream_name entry.2 db) with
    | .error e => .error e
    | .ok db' =>
      match wget entry.2 "event_id" with
      | none => .error .malformedRecord
      | some eid =>
        .ok { db' with checkpoints := db'.checkpoints ++
          [{ stream_name, redis_message_id := entry.1, event_id := eid }] }

/-- The session fold of one archival pass over a list of entries:
stop at the first error (a raised exception aborts the batch). -/
def archiveFold (stream_name : String) (is_multi : Bool) :
    ColdStore → List (Int × Wire) → Except ErrKind ColdStore
  | db, [] => .ok db
  | db, m :: rest =>
    match archiveEntry stream_name is_multi db m with
    | .error e => .error e
    | .ok db1 => archiveFold stream_name is_multi db1 rest

/-- StorageManager._archive_stream: xread from id 0 returns at most
MAX_EVENTS_PER_ARCHIVE_BATCH entries from the start of the stream;
each is archived in order within the session.  Any exception (for
instance a decode failure) aborts the batch. -/
def archive_stream (stream_name : String) (is_multi : Bool)
    (msgs : List (Int × Wire)) (db : ColdStore) : Except ErrKind ColdStore :=
  archiveFold stream_name is_multi db
    (msgs.take MAX_EVENTS_PER_ARCHIVE_BATCH)

/-- StorageManager._archive_batch: one session archiving the three
axon streams as mono events and the integrated stream as multi
events; the commit is all-or-nothing (an error yields no change). -/
def archive_batch (st : RedisState) (db : ColdStore) :
    Except ErrKind ColdStore :=
  match archive_stream "stream:axon_1" false st.axon1 db with
  | .error e => .error e
  | .ok db1 =>
    match archive_stream "stream:axon_2" false st.axon2 db1 with
    | .error e => .error e
    | .ok db2 =>
      match archive_stream "stream:axon_3" false st.axon3 db2 with
      | .error e => .error e
      | .ok db3 =>
        archive_stream "stream:integrated_events" true st.integrated db3

/-! ## Retention trim (StorageManager.cleanup_old_redis_data) -/

/-- redis.xtrim(stream, minid=cutoff): delete entries with id below
minid. -/
def xtrimMinId (minid : Int) (msgs : List (Int × Wire)) : List (Int × Wire) :=
  msgs.filter (fun m => decide (minid ≤ m.1))

/-- StorageManager.cleanup_old_redis_data: cutoff_ms is the wall clock
minus REDIS_TTL_SECONDS, in milliseconds; every tracked stream is
trimmed to ids at or above the cutoff.  now_ms is int(now * 1000). -/
def cleanup_old_redis_data (now_ms : Int) (st : RedisState) : RedisState :=
  let cutoff_ms := now_ms - REDIS_TTL_SECONDS * 1000
  { axon1 := xtrimMinId cutoff_ms st.axon1,
    axon2 := xtrimMinId cutoff_ms st.axon2,
    axon3 := xtrimMinId cutoff_ms st.axon3,
    integrated := xtrimMinId cutoff_ms st.integrated }

/-! ## Codec lemmas -/

deriving instance DecidableEq for Except

/-- A concrete mono event for the C5 witness. -/
def c5MonoEx : MonoOriginatedEvent :=
  { event_id := 10, timestamp := 0, source_stream := "stream:axon_1",
    event_type := .typeA, value := 10,
    metadata := [("k", .i 3)] }

/-- A concrete multi event for the C5 witness. -/
def c5MultiEx : MultiOriginatedEvent :=
  { event_id := 7, timestamp := 5, event_type := .multiOriginated,
    source_events := [10, 12], correlation_rule := "type_A_and_B_within_window",
    integrated_value := 15, confidence := 2 / 3,
    lineage := [("stream:axon_1", { event_id := 10, timestamp := 0, value := 10 })] }

/-! ## Decode failure classification (C7) -/

/-- A required mono field is missing (every field but metadata is read
with data[k], raising KeyError when absent). -/
def monoMissingRequired (w : Wire) : Prop :=
  wget w "event_id" = none ∨ wget w "timestamp" = none ∨
  wget w "source_stream" = none ∨ wget w "event_type" = none ∨
  wget w "value" = none

/-- The mono event_id field does not parse as an id. -/
def monoBadId (w : Wire) : Prop :=
  ∃ s, wget w "event_id" = some (.strV s) ∧ uuidParseChars s = none

/-- The mono timestamp field is not a well-formed ISO timestamp. -/
def monoBadTimestamp (w : Wire) : Prop :=
  ∃ v, wget w "timestamp" = some v ∧ ∀ t, v ≠ .tsV t

/-- The mono value field is not a well-formed numeric. -/
def monoBadNumeric (w : Wire) : Prop :=
  ∃ v, wget w "value" = some v ∧ ∀ x, v ≠ .numV x

/-- The mono metadata field is present, truthy, and not a valid
metadata JSON document. -/
def monoBadJson (w : Wire) : Prop :=
  ∃ v, wget w "metadata" = some v ∧ v.truthy = true ∧ ∀ m, v ≠ .metaV m

/-- The malformed-input classes of the claim, for mono decode. -/
def MonoBadInput (w : Wire) : Prop :=
  monoMissingRequired w ∨ monoBadId w ∨ monoBadTimestamp w ∨
  monoBadNumeric w ∨ monoBadJson w

/-- A required multi field is missing (the decoder never reads the
wire event_type field). -/
def multiMissingRequired (w : Wire) : Prop :=
  wget w "event_id" = none ∨ wget w "timestamp" = none ∨
  wget w "source_events" = none ∨ wget w "correlation_rule" = none ∨
  wget w "integrated_value" = none ∨ wget w "confidence" = none ∨
  wget w "lineage" = none

/-- A multi id field (event_id, or some element of the comma-split
source_events list) does not parse as an id. -/
def multiBadId (w : Wire) : Prop :=
  (∃ s, wget w "event_id" = some (.strV s) ∧ uuidParseChars s = none) ∨
  (∃ s, wget w "source_events" = some (.strV s) ∧
    mapOpt uuidParseChars (splitOnComma s) = none)

/-- The multi timestamp field is not a well-formed ISO timestamp. -/
def multiBadTimestamp (w : Wire) : Prop :=
  ∃ v, wget w "timestamp" = some v ∧ ∀ t, v ≠ .tsV t

/-- A multi numeric field (integrated_value or confidence) is not a
well-formed numeric. -/
def multiBadNumeric (w : Wire) : Prop :=
  (∃ v, wget w "integrated_value" = some v ∧ ∀ x, v ≠ .numV x) ∨
  (∃ v, wget w "confidence" = some v ∧ ∀ x, v ≠ .numV x)

/-- The multi lineage field is not a valid lineage JSON document. -/
def multiBadJson (w : Wire) : Prop :=
  ∃ v, wget w "lineage" = some v ∧ ∀ l, v ≠ .linV l

/-- The malformed-input classes of the claim, for multi decode. -/
def MultiBadInput (w : Wire) : Prop :=
  multiMissingRequired w ∨ multiBadId w ∨ multiBadTimestamp w ∨
  multiBadNumeric w ∨ multiBadJson w

def maxWindow (W : Int) : Int :=
  ((correlationRules W).map (fun p => p.2.duration_seconds)).foldr max 0

def exA0 : MonoOriginatedEvent :=
  { event_id := 10, timestamp := 0, source_stream := "s1",
    event_type := .typeA, value := 10, metadata := [] }

def exA1 : MonoOriginatedEvent :=
  { event_id := 11, timestamp := 1, source_stream := "s1",
    event_type := .typeA, value := 12, metadata := [] }

def exB : MonoOriginatedEvent :=
  { event_id := 12, timestamp := 2, source_stream := "s2",
    event_type := .typeB, value := 20, metadata := [] }

def exC : MonoOriginatedEvent :=
  { event_id := 13, timestamp := 0, source_stream := "s3",
    event_type := .typeC, value := 30, metadata := [] }

def lateA : MonoOriginatedEvent :=
  { event_id := 1, timestamp := 100, source_stream := "s1",
    event_type := .typeA, value := 10, metadata := [] }

def lateB : MonoOriginatedEvent :=
  { event_id := 2, timestamp := 0, source_stream := "s2",
    event_type := .typeB, value := 20, metadata := [] }

def exRuleAB : CorrelationWindow :=
  { duration_seconds := 2, required_event_types := [.typeA, .typeB],
    min_events := 2 }

def ckKeys (db : ColdStore) : List (String × Int) :=
  db.checkpoints.map (fun c => (c.stream_name, c.redis_message_id))

def ckNodup (db : ColdStore) : Prop := (ckKeys db).Nodup

/-- Five produced mono events on the first axon stream, as broker
entries, for the C6 witness. -/
def arcMsgs : List (Int × Wire) :=
  [ (1, MonoOriginatedEvent.to_redis_dict
      { event_id := 1, timestamp := 0, source_stream := "stream:axon_1",
        event_type := .typeA, value := 1, metadata := [] }),
    (2, MonoOriginatedEvent.to_redis_dict
      { event_id := 2, timestamp := 1, source_stream := "stream:axon_1",
        event_type := .typeB, value := 2, metadata := [] }),
    (3, MonoOriginatedEvent.to_redis_dict
      { event_id := 3, timestamp := 2, source_stream := "stream:axon_1",
        event_type := .typeC, value := 3, metadata := [] }),
    (4, MonoOriginatedEvent.to_redis_dict
      { event_id := 4, timestamp := 3, source_stream := "stream:axon_1",
        event_type := .typeA, value := 4, metadata := [] }),
    (5, MonoOriginatedEvent.to_redis_dict
      { event_id := 5, timestamp := 4, source_stream := "stream:axon_1",
        event_type := .typeB, value := 5, metadata := [] }) ]

/-- Broker state holding the five produced events. -/
def arcSt : RedisState :=
  { axon1 := arcMsgs, axon2 := [], axon3 := [], integrated := [] }

/-- Empty cold store. -/
def arcDb0 : ColdStore := { monoRows := [], multiRows := [], checkpoints := [] }

/-- The cold store after one archival batch over arcSt. -/
def arcDb1 : ColdStore :=
  match archive_batch arcSt arcDb0 with
  | .ok d => d
  | .error _ => arcDb0

theorem hexCharVal_hexChar : ∀ d, d < 16 → hexCharVal (hexChar d) = some d := by
  decide

theorem hexChar_ne_comma (d : Nat) : hexChar d ≠ ',' := by
  unfold hexChar
  split <;> decide

theorem hexDigitsAux_lt : ∀ f n d, d ∈ hexDigitsAux f n → d < 16 := by
  intro f
  induction f with
  | zero => intro n d h; simp [hexDigitsAux] at h
  | succ f ih =>
    intro n d h
    cases n with
    | zero => simp [hexDigitsAux] at h
    | succ n =>
      simp only [hexDigitsAux, List.mem_cons] at h
      rcases h with h | h
      · subst h; exact Nat.mod_lt _ (by omega)
      · exact ih _ _ h

theorem hexDigitsAux_ofDigits : ∀ f n, n ≤ f →
    Nat.ofDigits 16 (hexDigitsAux f n) = n := by
  intro f
  induction f with
  | zero => intro n h; interval_cases n; simp [hexDigitsAux]
  | succ f ih =>
    intro n h
    cases n with
    | zero => simp [hexDigitsAux]
    | succ n =>
      have hdiv : (n + 1) / 16 ≤ f := by
        have h1 : (n + 1) / 16 < n + 1 := Nat.div_lt_self (by omega) (by omega)
        omega
      simp only [hexDigitsAux, Nat.ofDigits_cons, ih _ hdiv]
      omega

theorem ofDigits_hexDigits (n : Nat) : Nat.ofDigits 16 (hexDigits n) = n :=
  hexDigitsAux_ofDigits n n le_rfl

theorem mapOpt_map_some {l : List α} {g : α → β} {f : β → Option α}
    (h : ∀ a ∈ l, f (g a) = some a) : mapOpt f (l.map g) = some l := by
  induction l with
  | nil => rfl
  | cons a as ih =>
    simp only [List.map_cons, mapOpt]
    rw [h a (by simp), ih (fun a ha => h a (by simp [ha]))]

theorem uuidChars_ne_nil (n : UUID) : uuidChars n ≠ [] := by
  unfold uuidChars
  split
  · simp
  · rename_i h
    cases hn : hexDigits n with
    | nil =>
      exfalso
      have hv := ofDigits_hexDigits n
      rw [hn, Nat.ofDigits_nil] at hv
      exact h hv.symm
    | cons d ds => simp [hn]

theorem comma_not_mem_uuidChars (n : UUID) : ',' ∉ uuidChars n := by
  unfold uuidChars
  split
  · decide
  · intro h
    simp only [List.mem_map] at h
    obtain ⟨d, _, hd⟩ := h
    exact hexChar_ne_comma d hd

theorem uuidParse_uuidChars (n : UUID) : uuidParseChars (uuidChars n) = some n := by
  by_cases h0 : n = 0
  · subst h0; decide
  · have hchars : uuidChars n = (hexDigits n).reverse.map hexChar := by
      simp [uuidChars, h0]
    have hmap : mapOpt hexCharVal ((hexDigits n).reverse.map hexChar) =
        some (hexDigits n).reverse := by
      apply mapOpt_map_some
      intro d hd
      exact hexCharVal_hexChar d (hexDigitsAux_lt n n d (List.mem_reverse.mp hd))
    obtain ⟨c, cs, hc⟩ := List.exists_cons_of_ne_nil (uuidChars_ne_nil n)
    rw [hc]
    show (match mapOpt hexCharVal (c :: cs) with
          | none => none
          | some ds => some (Nat.ofDigits 16 ds.reverse)) = some n
    rw [← hc, hchars, hmap]
    simp [ofDigits_hexDigits]

theorem splitOnComma_ne_nil (cs : List Char) : splitOnComma cs ≠ [] := by
  induction cs with
  | nil => simp [splitOnComma]
  | cons c cs ih =>
    simp only [splitOnComma]
    split
    · simp
    · cases h : splitOnComma cs with
      | nil => exact absurd h ih
      | cons a as => simp

theorem splitOnComma_append (x rest : List Char) (h : ',' ∉ x)
    (hd : List Char) (tl : List (List Char))
    (hr : splitOnComma rest = hd :: tl) :
    splitOnComma (x ++ rest) = (x ++ hd) :: tl := by
  induction x with
  | nil => simpa using hr
  | cons c cs ih =>
    have hc : c ≠ ',' := fun hcc => h (by simp [hcc])
    have hcs : ',' ∉ cs := fun hmem => h (by simp [hmem])
    simp only [List.cons_append, splitOnComma]
    rw [show cs.append rest = cs ++ rest from rfl, ih hcs]
    simp [hc]

theorem splitOnComma_joinCommaL :
    ∀ l : List (List Char), l ≠ [] → (∀ x ∈ l, ',' ∉ x) →
      splitOnComma (joinCommaL l) = l := by
  intro l
  induction l with
  | nil => intro h; exact absurd rfl h
  | cons x xs ih =>
    intro _ hfree
    cases xs with
    | nil =>
      have : splitOnComma ([] : List Char) = [] :: [] := rfl
      have := splitOnComma_append x [] (hfree x (by simp)) [] [] rfl
      simpa [joinCommaL] using this
    | cons y ys =>
      have hx : ',' ∉ x := hfree x (by simp)
      have hrest : splitOnComma (joinCommaL (y :: ys)) = y :: ys :=
        ih (by simp) (fun a ha => hfree a (by simp [ha]))
      have hcomma : splitOnComma (',' :: joinCommaL (y :: ys)) =
          [] :: (y :: ys) := by
        simp [splitOnComma, hrest]
      have := splitOnComma_append x (',' :: joinCommaL (y :: ys)) hx
        [] (y :: ys) hcomma
      simpa [joinCommaL] using this

theorem mapOpt_uuidParse (l : List UUID) :
    mapOpt uuidParseChars (l.map uuidChars) = some l :=
  mapOpt_map_some (fun a _ => uuidParse_uuidChars a)

theorem EventType.parseVal_val (t : EventType) :
    EventType.parseVal t.val = some t := by
  cases t <;> rfl

/-! ## Round-trip of the wire codecs -/

theorem mono_roundtrip (e : MonoOriginatedEvent) :
    MonoOriginatedEvent.from_redis_dict (MonoOriginatedEvent.to_redis_dict e) =
      .ok e := by
  cases e with
  | mk id ts ss et v md =>
    cases et <;>
      (simp [MonoOriginatedEvent.to_redis_dict, MonoOriginatedEvent.from_redis_dict,
        wget, uuidParse_uuidChars, EventType.parseVal_val, WireVal.truthy,
        EventType.val, EventType.parseVal, Except.bind, Except.pure]
       rfl)

theorem multi_roundtrip (x : MultiOriginatedEvent)
    (h1 : x.event_type = .multiOriginated) (h2 : x.source_events ≠ []) :
    MultiOriginatedEvent.from_redis_dict (MultiOriginatedEvent.to_redis_dict x) =
      .ok x := by
  cases x with
  | mk id ts et se cr iv cf lin =>
    subst h1
    have hse : mapOpt uuidParseChars (splitOnComma (joinCommaL (se.map uuidChars)))
        = some se := by
      rw [splitOnComma_joinCommaL (se.map uuidChars)
        (by simpa using h2)
        (fun cs hcs => by
          obtain ⟨u, _, hu⟩ := List.mem_map.mp hcs
          rw [← hu]; exact comma_not_mem_uuidChars u)]
      exact mapOpt_uuidParse se
    simp [MultiOriginatedEvent.to_redis_dict, MultiOriginatedEvent.from_redis_dict,
      wget, uuidParse_uuidChars, hse, Except.bind, Except.pure]
    rfl

/-- C5: decoding the encoded broker wire form returns the original
event, for every mono event and for every valid multi event (the
fixed MULTI_ORIGINATED tag, which the decoder restores as a default
rather than reading it back, and a nonempty source_events list, since
the comma join of an empty list is the empty string, which fails to
parse as an id list). -/
theorem claim_C5_roundtrip (e : MonoOriginatedEvent) (x : MultiOriginatedEvent)
    (h1 : x.event_type = .multiOriginated) (h2 : x.source_events ≠ []) :
    MonoOriginatedEvent.from_redis_dict (MonoOriginatedEvent.to_redis_dict e) =
        .ok e ∧
    MultiOriginatedEvent.from_redis_dict (MultiOriginatedEvent.to_redis_dict x) =
        .ok x :=
  ⟨mono_roundtrip e, multi_roundtrip x h1 h2⟩

/-- Witness for C5 at concrete events. -/
theorem claim_C5_witness :
    MonoOriginatedEvent.from_redis_dict
        (MonoOriginatedEvent.to_redis_dict c5MonoEx) = .ok c5MonoEx ∧
    MultiOriginatedEvent.from_redis_dict
        (MultiOriginatedEvent.to_redis_dict c5MultiEx) = .ok c5MultiEx :=
  claim_C5_roundtrip c5MonoEx c5MultiEx rfl (by decide)

theorem mono_error_malformed (w : Wire) (k : ErrKind)
    (h : MonoOriginatedEvent.from_redis_dict w = .error k) :
    k = .malformedRecord := by
  unfold MonoOriginatedEvent.from_redis_dict at h
  simp only [bind, Except.bind, pure, Except.pure, throw, throwThe,
    MonadExceptOf.throw] at h
  iterate 16 (all_goals try split at h)
  all_goals simp_all

theorem mono_bad_error (w : Wire) (hbad : MonoBadInput w) :
    MonoOriginatedEvent.from_redis_dict w = .error .malformedRecord := by
  unfold MonoOriginatedEvent.from_redis_dict
  simp only [bind, Except.bind, pure, Except.pure, throw, throwThe,
    MonadExceptOf.throw]
  iterate 16 (all_goals try split)
  all_goals try rfl
  all_goals
    (exfalso;
     rcases hbad with (hm | hm | hm | hm | hm) | hm | hm | hm | hm <;>
       simp_all [monoMissingRequired, monoBadId, monoBadTimestamp,
         monoBadNumeric, monoBadJson])

theorem multi_error_malformed (w : Wire) (k : ErrKind)
    (h : MultiOriginatedEvent.from_redis_dict w = .error k) :
    k = .malformedRecord := by
  unfold MultiOriginatedEvent.from_redis_dict at h
  simp only [bind, Except.bind, pure, Except.pure, throw, throwThe,
    MonadExceptOf.throw] at h
  iterate 20 (all_goals try split at h)
  all_goals simp_all

theorem multi_bad_error (w : Wire) (hbad : MultiBadInput w) :
    MultiOriginatedEvent.from_redis_dict w = .error .malformedRecord := by
  unfold MultiOriginatedEvent.from_redis_dict
  simp only [bind, Except.bind, pure, Except.pure, throw, throwThe,
    MonadExceptOf.throw]
  iterate 20 (all_goals try split)
  all_goals try rfl
  all_goals
    (exfalso;
     rcases hbad with
       (hm | hm | hm | hm | hm | hm | hm) | (hm | hm) | hm | (hm | hm) | hm <;>
       simp_all [multiMissingRequired, multiBadId, multiBadTimestamp,
         multiBadNumeric, multiBadJson])

/-- C7: on a field map missing a required field, or with an
unparsable numeric, timestamp or id, or invalid JSON, decode fails
with MalformedRecord; and decode never fails with any other error
kind, for both mono and multi decoding. -/
theorem claim_C7_decode_errors :
    (∀ w, MonoBadInput w →
      MonoOriginatedEvent.from_redis_dict w = .error .malformedRecord) ∧
    (∀ w k, MonoOriginatedEvent.from_redis_dict w = .error k →
      k = .malformedRecord) ∧
    (∀ w, MultiBadInput w →
      MultiOriginatedEvent.from_redis_dict w = .error .malformedRecord) ∧
    (∀ w k, MultiOriginatedEvent.from_redis_dict w = .error k →
      k = .malformedRecord) :=
  ⟨mono_bad_error, mono_error_malformed, multi_bad_error, multi_error_malformed⟩

/-- Witness for C7: the empty field map is missing every required
field, and decoding it fails with MalformedRecord. -/
theorem claim_C7_witness :
    MonoOriginatedEvent.from_redis_dict [] = .error .malformedRecord ∧
    MultiOriginatedEvent.from_redis_dict [] = .error .malformedRecord :=
  ⟨claim_C7_decode_errors.1 [] (Or.inl (Or.inl rfl)),
   claim_C7_decode_errors.2.2.1 [] (Or.inl (Or.inl rfl))⟩

theorem maxWindow_eq (W : Int) (hW : 0 ≤ W) : maxWindow W = W := by
  simp [maxWindow, correlationRules, max_eq_left hW]

theorem prune_eq_filter (W now : Int) (l : List MonoOriginatedEvent)
    (hs : l.Pairwise (fun x y => x.timestamp ≤ y.timestamp)) :
    prune_expired_events W now l =
      l.filter (fun x => decide (now - W ≤ x.timestamp)) := by
  induction l with
  | nil => rfl
  | cons e rest ih =>
    rw [List.pairwise_cons] at hs
    by_cases he : e.timestamp < now - W
    · have hne : ¬ (now - W ≤ e.timestamp) := not_le.mpr he
      simp only [prune_expired_events, if_pos he, List.filter_cons,
        decide_eq_true_eq, hne, if_neg hne]
      simpa using ih hs.2
    · have hle : now - W ≤ e.timestamp := not_lt.mp he
      have hall : ∀ x ∈ rest, now - W ≤ x.timestamp :=
        fun x hx => le_trans hle (hs.1 x hx)
      simp only [prune_expired_events, if_neg he, List.filter_cons,
        decide_eq_true_eq, hle, if_pos hle]
      rw [List.filter_eq_self.mpr (fun a ha => by simpa using hall a ha)]
      simp

/-- C9 counterexample: on an out-of-order buffer state, push does NOT
remove exactly the events whose timestamp is earlier than now minus
max_window.  With a newer event (ts 100) already at the head, pushing
a late event stamped 0 at now = 100 under window 2 leaves the late
event in the buffer even though its timestamp 0 is far below the
cutoff 98: the prune loop only pops from the head and stops at the
first non-expired head. -/
theorem claim_C9_counterexample :
    maxWindow 2 = 2 ∧
    add_event 2 100 lateB [lateA] = [lateA, lateB] ∧
    lateB ∈ add_event 2 100 lateB [lateA] ∧
    lateB.timestamp < 100 - maxWindow 2 := by
  decide

/-- C9 amended: add_event appends e at the tail and then removes from
the head the maximal prefix of events older than now minus
max_window, which equals removing exactly the expired events only
when the buffer is nondecreasing in timestamps (the hypothesis below,
forced by the counterexample); the prune cutoff equals now minus the
maximum window_duration across the active rules (so the maximum
equals the shared window); and the size cap of 100 evicts the oldest
entries, the result being a suffix of the appended buffer of length
at most MAX_PENDING_EVENTS. -/
theorem claim_C9_push_prune (W now : Int) (e : MonoOriginatedEvent)
    (b : List MonoOriginatedEvent) (hW : 0 ≤ W)
    (hs : (capAppend e b).Pairwise (fun x y => x.timestamp ≤ y.timestamp)) :
    maxWindow W = W ∧
    add_event W now e b =
      (capAppend e b).filter
        (fun x => decide (now - maxWindow W ≤ x.timestamp)) ∧
    (capAppend e b) <:+ (b ++ [e]) ∧
    (capAppend e b).length ≤ MAX_PENDING_EVENTS := by
  refine ⟨maxWindow_eq W hW, ?_, ?_, ?_⟩
  · rw [maxWindow_eq W hW]
    exact prune_eq_filter W now (capAppend e b) hs
  · exact List.drop_suffix _ _
  · simp only [capAppend, List.length_drop]
    omega

theorem check_correlation_some (rules : List (String × CorrelationWindow))
    (b : List MonoOriginatedEvent) (name : String) (fid : UUID) (now : Time)
    (rule : CorrelationWindow) (m : MultiOriginatedEvent)
    (hr : (rules.find? (fun p => p.1 = name)).map (·.2) = some rule) :
    check_correlation rules b name fid now = some m ↔
      ((∀ t ∈ rule.required_event_types,
          t ∈ (matching_events rule b).map (·.event_type)) ∧
       rule.min_events ≤ (matching_events rule b).length ∧
       m = create_multi_originated_event (matching_events rule b) name fid now) := by
  unfold check_correlation
  rw [hr]
  by_cases h1 : ∀ t ∈ rule.required_event_types,
      t ∈ (matching_events rule b).map (·.event_type)
  · by_cases h2 : rule.min_events ≤ (matching_events rule b).length
    · simp [h1, h2, eq_comm, -List.mem_map]
    · simp [h1, h2, -List.mem_map]
  · simp [h1, -List.mem_map]

/-- C1 amended: whenever check_correlation emits for a rule, the
selected source set S is the list of ALL buffered events whose type is
in the rule's required_event_types, in buffer (arrival) order — not
the newest event per required type extended to min_events with id tie
breaking; and an emission happens exactly when every required type is
present among the matching events and at least min_events of them
match. -/
theorem claim_C1_amended (W : Int) (b : List MonoOriginatedEvent) (name : String)
    (fid : UUID) (now : Time) (rule : CorrelationWindow)
    (hr : ((correlationRules W).find? (fun p => p.1 = name)).map (·.2) =
      some rule) :
    (∀ m, check_correlation (correlationRules W) b name fid now = some m →
      m.source_events = (matching_events rule b).map (·.event_id)) ∧
    (((∀ t ∈ rule.required_event_types,
        t ∈ (matching_events rule b).map (·.event_type)) ∧
      rule.min_events ≤ (matching_events rule b).length) ↔
      (check_correlation (correlationRules W) b name fid now).isSome) := by
  constructor
  · intro m hm
    have := (check_correlation_some (correlationRules W) b name fid now rule m
      hr).mp hm
    rw [this.2.2]
    rfl
  · constructor
    · intro hcond
      rw [(check_correlation_some (correlationRules W) b name fid now rule
        (create_multi_originated_event (matching_events rule b) name fid now)
        hr).mpr ⟨hcond.1, hcond.2, rfl⟩]
      rfl
    · intro hsome
      obtain ⟨m, hm⟩ := Option.isSome_iff_exists.mp hsome
      have := (check_correlation_some (correlationRules W) b name fid now rule m
        hr).mp hm
      exact ⟨this.1, this.2.1⟩

/-- C3: every MultiEvent the engine emits has integrated_value equal
to the arithmetic mean of the values of its source events, and
confidence equal to min(1, number of source events / 3). -/
theorem claim_C3_derived_fields (rules : List (String × CorrelationWindow))
    (b : List MonoOriginatedEvent) (name : String) (fid : UUID) (now : Time)
    (rule : CorrelationWindow) (m : MultiOriginatedEvent)
    (hr : (rules.find? (fun p => p.1 = name)).map (·.2) = some rule)
    (h : check_correlation rules b name fid now = some m) :
    m.source_events = (matching_events rule b).map (·.event_id) ∧
    m.integrated_value =
      ((matching_events rule b).map (·.value)).sum /
        ((matching_events rule b).length : ℚ) ∧
    m.confidence = min 1 (((matching_events rule b).length : ℚ) / 3) := by
  have hc := (check_correlation_some rules b name fid now rule m hr).mp h
  rw [hc.2.2]
  exact ⟨rfl, rfl, rfl⟩

/-- C10: every MultiEvent emitted under the engine's rule table has
confidence at least 2/3, because both built-in rules have
min_events at least 2, the emitted set has at least min_events
events, and min(1, n/3) is at least 2/3 for n at least 2. -/
theorem claim_C10_confidence (W : Int) (b : List MonoOriginatedEvent)
    (name : String) (fid : UUID) (now : Time) (m : MultiOriginatedEvent)
    (h : check_correlation (correlationRules W) b name fid now = some m) :
    2 / 3 ≤ m.confidence := by
  cases hf : ((correlationRules W).find? (fun p => p.1 = name)) with
  | none =>
    exfalso
    unfold check_correlation at h
    rw [hf] at h
    simp at h
  | some pr =>
    have hr : ((correlationRules W).find? (fun p => p.1 = name)).map (·.2) =
        some pr.2 := by rw [hf]; rfl
    have hc := (check_correlation_some (correlationRules W) b name fid now pr.2
      m hr).mp h
    have hmem := List.mem_of_find?_eq_some hf
    have hmin : 2 ≤ pr.2.min_events := by
      simp only [correlationRules, List.mem_cons, List.mem_singleton,
        List.not_mem_nil, or_false] at hmem
      rcases hmem with h1 | h1 <;> simp [h1]
    have hlen : (2 : ℚ) ≤ ((matching_events pr.2 b).length : ℚ) := by
      exact_mod_cast le_trans hmin hc.2.1
    rw [hc.2.2]
    show 2 / 3 ≤ min 1 (((matching_events pr.2 b).length : ℚ) / 3)
    apply le_min
    · norm_num
    · linarith

/-- C4 amended: provided the buffer is nondecreasing in timestamps
(events arrive in timestamp order) and every buffered timestamp is at
most the pruning instant, any two source events of an emitted
MultiEvent have timestamps within the rule's window_duration of each
other.  Without the ordering hypothesis this fails (see the
counterexample): a late out-of-order arrival survives the head-only
prune loop. -/
theorem claim_C4_amended (W now : Int) (b : List MonoOriginatedEvent)
    (name : String) (fid : UUID) (rule : CorrelationWindow)
    (m : MultiOriginatedEvent)
    (hr : ((correlationRules W).find? (fun p => p.1 = name)).map (·.2) =
      some rule)
    (hs : b.Pairwise (fun x y => x.timestamp ≤ y.timestamp))
    (hub : ∀ x ∈ b, x.timestamp ≤ now)
    (h : check_correlation (correlationRules W)
        (prune_expired_events W now b) name fid now = some m) :
    m.source_events =
      (matching_events rule (prune_expired_events W now b)).map (·.event_id) ∧
    ∀ x ∈ matching_events rule (prune_expired_events W now b),
      ∀ y ∈ matching_events rule (prune_expired_events W now b),
        x.timestamp - y.timestamp ≤ rule.duration_seconds := by
  have hc := (check_correlation_some _ _ _ _ _ _ _ hr).mp h
  refine ⟨by rw [hc.2.2]; rfl, ?_⟩
  have hdur : rule.duration_seconds = W := by
    cases hf : (correlationRules W).find? (fun p => p.1 = name) with
    | none => rw [hf] at hr; simp at hr
    | some pr =>
      rw [hf] at hr
      have hpr : pr.2 = rule := by simpa using hr
      have hmem := List.mem_of_find?_eq_some hf
      simp only [correlationRules, List.mem_cons, List.mem_singleton,
        List.not_mem_nil, or_false] at hmem
      rcases hmem with h1 | h1 <;> rw [← hpr, h1]
  intro x hx y hy
  have hxp : x ∈ prune_expired_events W now b :=
    (List.mem_filter.mp hx).1
  have hyp : y ∈ prune_expired_events W now b :=
    (List.mem_filter.mp hy).1
  rw [prune_eq_filter W now b hs] at hxp hyp
  have hx1 := List.mem_filter.mp hxp
  have hy1 := List.mem_filter.mp hyp
  have hylo : now - W ≤ y.timestamp := by simpa using hy1.2
  have hxub : x.timestamp ≤ now := hub x hx1.1
  rw [hdur]
  linarith

theorem check_sources_indep (rules : List (String × CorrelationWindow))
    (b : List MonoOriginatedEvent) (name : String) (now : Time)
    (fid fid' : UUID) :
    (check_correlation rules b name fid now).map (·.source_events) =
      (check_correlation rules b name fid' now).map (·.source_events) := by
  unfold check_correlation
  cases hf : (rules.find? (fun p => p.1 = name)) with
  | none => rfl
  | some pr =>
    simp only [Option.map_some]
    split <;> simp [create_multi_originated_event]

theorem checkAll_proj_indep (rules : List (String × CorrelationWindow))
    (b : List MonoOriginatedEvent) (now : Time) :
    ∀ (names : List String) (n1 n2 : UUID),
      (checkAllRules rules b now names n1).2.map
          (fun p => (p.1, p.2.source_events)) =
        (checkAllRules rules b now names n2).2.map
          (fun p => (p.1, p.2.source_events)) := by
  intro names
  induction names with
  | nil => intro n1 n2; rfl
  | cons name rest ih =>
    intro n1 n2
    have hopt := check_sources_indep rules b name now n1 n2
    cases h1 : check_correlation rules b name n1 now with
    | none =>
      cases h2 : check_correlation rules b name n2 now with
      | none =>
        simp only [checkAllRules, h1, h2]
        exact ih n1 n2
      | some m => rw [h1, h2] at hopt; simp at hopt
    | some m =>
      cases h2 : check_correlation rules b name n2 now with
      | none => rw [h1, h2] at hopt; simp at hopt
      | some m' =>
        have hse : m.source_events = m'.source_events := by
          rw [h1, h2] at hopt; simpa using hopt
        simp only [checkAllRules, h1, h2, List.map_cons, hse]
        rw [ih (n1 + 1) (n2 + 1)]

/-- C2 amended: the worker keeps no per-rule last-emission state at
all; the sequence of (rule, source_events) it emits on an ingress
depends only on the buffer, never on emission history, so the same
selection is re-emitted whenever the rule's preconditions still hold
(see the counterexample for two consecutive identical emissions). -/
theorem claim_C2_amended (W now : Int) (e : MonoOriginatedEvent)
    (st1 st2 : WorkerState) (hbuf : st1.buffer = st2.buffer) :
    (processEvent W now e st1).2.map (fun p => (p.1, p.2.source_events)) =
      (processEvent W now e st2).2.map (fun p => (p.1, p.2.source_events)) := by
  unfold processEvent
  rw [hbuf]
  exact checkAll_proj_indep _ _ _ _ st1.nextId st2.nextId

/-- C1 counterexample: with two type-A events (ids 10, 11 at times
0, 1) and one type-B event (id 12 at time 2) in the buffer, the
engine emits source set {10, 11, 12} — all matching events — while
the spec's selection policy (newest per required type, extended to
min_events) selects {11, 12}; event 10 is emitted but not selected by
the spec's policy. -/
theorem claim_C1_counterexample :
    ((correlationRules 2).find?
        (fun p => p.1 = "type_A_and_B_within_window")).map (·.2) =
      some exRuleAB ∧
    (check_correlation (correlationRules 2) [exA0, exA1, exB]
        "type_A_and_B_within_window" 99 2).map (·.source_events) =
      some [10, 11, 12] ∧
    (specSelect exRuleAB [exA0, exA1, exB]).map
      (fun l => l.map (·.event_id)) = some [11, 12] ∧
    (10 : UUID) ∈ [10, 11, 12] ∧ (10 : UUID) ∉ ([11, 12] : List UUID) := by
  decide

/-- C2 counterexample: on the trace A, B, C the worker emits for the
rule type_A_and_B_within_window twice in a row with the identical
source_events list [10, 12]: the arrival of the type-C event re-fires
the A-and-B rule with an unchanged selection, because the engine
keeps no last-emission state. -/
theorem claim_C2_counterexample :
    ((processTrace 2 [(0, exA0), (0, exB), (0, exC)]
        { buffer := [], nextId := 0 }).2.filter
      (fun p => p.1 = "type_A_and_B_within_window")).map
        (fun p => p.2.source_events) = [[10, 12], [10, 12]] := by
  decide

/-- C4 counterexample: a late out-of-order arrival (type B at
timestamp 0, arriving at time 100 behind a type-A event stamped 100)
survives the head-only prune and the engine emits a MultiEvent whose
two source events are 100 time units apart, far beyond the rule's
window_duration of 2. -/
theorem claim_C4_counterexample :
    ((correlationRules 2).find?
        (fun p => p.1 = "type_A_and_B_within_window")).map
      (·.2.duration_seconds) = some 2 ∧
    (processTrace 2 [(100, lateA), (100, lateB)]
        { buffer := [], nextId := 0 }).2.map
      (fun p => (p.1, p.2.lineage.map (fun q => q.2.timestamp))) =
      [("type_A_and_B_within_window", [100, 0])] ∧
    ¬ ((100 : Time) - 0 ≤ 2) := by
  decide

/-- Witness for C1's amended statement at a concrete buffer. -/
theorem claim_C1_amended_witness :
    (∀ m, check_correlation (correlationRules 2) [exA0, exA1, exB]
        "type_A_and_B_within_window" 99 2 = some m →
      m.source_events =
        (matching_events exRuleAB [exA0, exA1, exB]).map (·.event_id)) ∧
    (((∀ t ∈ exRuleAB.required_event_types,
        t ∈ (matching_events exRuleAB [exA0, exA1, exB]).map (·.event_type)) ∧
      exRuleAB.min_events ≤ (matching_events exRuleAB [exA0, exA1, exB]).length) ↔
      (check_correlation (correlationRules 2) [exA0, exA1, exB]
        "type_A_and_B_within_window" 99 2).isSome) :=
  claim_C1_amended 2 [exA0, exA1, exB] "type_A_and_B_within_window" 99 2
    exRuleAB (by decide)

/-- Witness for C2's amended statement: two worker states with the
same buffer but different fresh-id supplies emit the same
(rule, source_events) sequence. -/
theorem claim_C2_amended_witness :
    (processEvent 2 2 exC { buffer := [exA0, exB], nextId := 0 }).2.map
        (fun p => (p.1, p.2.source_events)) =
      (processEvent 2 2 exC { buffer := [exA0, exB], nextId := 7 }).2.map
        (fun p => (p.1, p.2.source_events)) :=
  claim_C2_amended 2 2 exC { buffer := [exA0, exB], nextId := 0 }
    { buffer := [exA0, exB], nextId := 7 } rfl

/-- Witness for C3 at a concrete emission. -/
theorem claim_C3_witness :
    (create_multi_originated_event (matching_events exRuleAB [exA0, exB])
        "type_A_and_B_within_window" 99 5).source_events =
      (matching_events exRuleAB [exA0, exB]).map (·.event_id) ∧
    (create_multi_originated_event (matching_events exRuleAB [exA0, exB])
        "type_A_and_B_within_window" 99 5).integrated_value =
      ((matching_events exRuleAB [exA0, exB]).map (·.value)).sum /
        ((matching_events exRuleAB [exA0, exB]).length : ℚ) ∧
    (create_multi_originated_event (matching_events exRuleAB [exA0, exB])
        "type_A_and_B_within_window" 99 5).confidence =
      min 1 (((matching_events exRuleAB [exA0, exB]).length : ℚ) / 3) :=
  claim_C3_derived_fields (correlationRules 2) [exA0, exB]
    "type_A_and_B_within_window" 99 5 exRuleAB _ (by decide) rfl

/-- Witness for C4's amended statement at a concrete sorted buffer. -/
theorem claim_C4_amended_witness :
    (create_multi_originated_event
        (matching_events exRuleAB (prune_expired_events 2 2 [exA0, exB]))
        "type_A_and_B_within_window" 99 2).source_events =
      (matching_events exRuleAB
        (prune_expired_events 2 2 [exA0, exB])).map (·.event_id) ∧
    ∀ x ∈ matching_events exRuleAB (prune_expired_events 2 2 [exA0, exB]),
      ∀ y ∈ matching_events exRuleAB (prune_expired_events 2 2 [exA0, exB]),
        x.timestamp - y.timestamp ≤ exRuleAB.duration_seconds :=
  claim_C4_amended 2 2 [exA0, exB] "type_A_and_B_within_window" 99 exRuleAB _
    (by decide) (by decide) (by decide) rfl

/-- Witness for C9 at a concrete sorted buffer. -/
theorem claim_C9_witness :
    maxWindow 2 = 2 ∧
    add_event 2 2 exB [exA0, exA1] =
      (capAppend exB [exA0, exA1]).filter
        (fun x => decide (2 - maxWindow 2 ≤ x.timestamp)) ∧
    (capAppend exB [exA0, exA1]) <:+ ([exA0, exA1] ++ [exB]) ∧
    (capAppend exB [exA0, exA1]).length ≤ MAX_PENDING_EVENTS :=
  claim_C9_push_prune 2 2 exB [exA0, exA1] (by decide) (by decide)

/-- Witness for C10 at a concrete emission. -/
theorem claim_C10_witness :
    2 / 3 ≤ (create_multi_originated_event
      (matching_events exRuleAB [exA0, exB])
      "type_A_and_B_within_window" 99 5).confidence :=
  claim_C10_confidence 2 [exA0, exB] "type_A_and_B_within_window" 99 5 _ rfl

theorem hasCk_iff (db : ColdStore) (name : String) (mid : Int) :
    hasCk db name mid = true ↔ (name, mid) ∈ ckKeys db := by
  simp only [hasCk, ckKeys, List.any_eq_true, List.mem_map, decide_eq_true_eq]
  constructor
  · rintro ⟨c, hc, h1, h2⟩
    exact ⟨c, hc, by rw [h1, h2]⟩
  · rintro ⟨c, hc, h⟩
    exact ⟨c, hc, congrArg Prod.fst h, congrArg Prod.snd h⟩

theorem store_mono_ck (sname : String) (w : Wire) (db db' : ColdStore)
    (h : store_mono_event sname w db = .ok db') :
    db'.checkpoints = db.checkpoints := by
  unfold store_mono_event at h
  cases hd : MonoOriginatedEvent.from_redis_dict
      (wset w "source_stream" (.strV sname.data)) with
  | error k => rw [hd] at h; simp at h
  | ok e => rw [hd] at h; cases h; rfl

theorem store_multi_ck (w : Wire) (db db' : ColdStore)
    (h : store_multi_event w db = .ok db') :
    db'.checkpoints = db.checkpoints := by
  unfold store_multi_event at h
  cases hd : MultiOriginatedEvent.from_redis_dict w with
  | error k => rw [hd] at h; simp at h
  | ok e => rw [hd] at h; cases h; rfl

theorem archiveEntry_ok (sname : String) (im : Bool) (db : ColdStore)
    (m : Int × Wire) (db' : ColdStore)
    (h : archiveEntry sname im db m = .ok db') :
    (∀ n mid, hasCk db n mid = true → hasCk db' n mid = true) ∧
    hasCk db' sname m.1 = true ∧
    (ckNodup db → ckNodup db') := by
  unfold archiveEntry at h
  by_cases hck : hasCk db sname m.1 = true
  · rw [if_pos hck] at h
    cases h
    exact ⟨fun n mid hh => hh, hck, fun hh => hh⟩
  · rw [if_neg hck] at h
    have hstore : ∀ db1 : ColdStore,
        (if im = true then store_multi_event m.2 db
         else store_mono_event sname m.2 db) = .ok db1 →
        db1.checkpoints = db.checkpoints := by
      intro db1 hdb1
      cases im with
      | true => exact store_multi_ck m.2 db db1 (by simpa using hdb1)
      | false => exact store_mono_ck sname m.2 db db1 (by simpa using hdb1)
    cases hs : (if im = true then store_multi_event m.2 db
                else store_mono_event sname m.2 db) with
    | error k => rw [hs] at h; simp at h
    | ok db1 =>
      rw [hs] at h
      have hcks := hstore db1 hs
      cases hg : wget m.2 "event_id" with
      | none => rw [hg] at h; simp at h
      | some v =>
        rw [hg] at h
        cases h
        refine ⟨?_, ?_, ?_⟩
        · intro n mid hh
          simp only [hasCk, List.any_append, Bool.or_eq_true]
          left
          rw [hcks]
          simpa [hasCk] using hh
        · simp [hasCk, List.any_append]
        · intro hnd
          unfold ckNodup ckKeys at hnd ⊢
          simp only [List.map_append, List.map_cons, List.map_nil]
          rw [hcks, List.nodup_append]
          refine ⟨hnd, by simp, ?_⟩
          intro a ha hb
          simp only [List.mem_singleton] at hb
          subst hb
          rw [show db.checkpoints.map
              (fun c => (c.stream_name, c.redis_message_id)) = ckKeys db
            from rfl, ← hasCk_iff] at ha
          exact hck ha

theorem archiveFold_skip (sname : String) (im : Bool) :
    ∀ (l : List (Int × Wire)) (db : ColdStore),
      (∀ m ∈ l, hasCk db sname m.1 = true) →
      archiveFold sname im db l = .ok db := by
  intro l
  induction l with
  | nil => intro db _; rfl
  | cons m rest ih =>
    intro db hall
    have hm : archiveEntry sname im db m = .ok db := by
      unfold archiveEntry
      rw [if_pos (hall m (by simp))]
    simp only [archiveFold, hm]
    exact ih db (fun x hx => hall x (by simp [hx]))

theorem archiveFold_ok (sname : String) (im : Bool) :
    ∀ (l : List (Int × Wire)) (db db' : ColdStore),
      archiveFold sname im db l = .ok db' →
      (∀ n mid, hasCk db n mid = true → hasCk db' n mid = true) ∧
      (∀ m ∈ l, hasCk db' sname m.1 = true) ∧
      (ckNodup db → ckNodup db') := by
  intro l
  induction l with
  | nil =>
    intro db db' h
    cases h
    exact ⟨fun n mid hh => hh, by simp, fun hh => hh⟩
  | cons m rest ih =>
    intro db db' h
    simp only [archiveFold] at h
    cases he : archiveEntry sname im db m with
    | error k => rw [he] at h; simp at h
    | ok db1 =>
      rw [he] at h
      have h1 := archiveEntry_ok sname im db m db1 he
      have h2 := ih db1 db' h
      refine ⟨fun n mid hh => h2.1 n mid (h1.1 n mid hh), ?_, ?_⟩
      · intro x hx
        rcases List.mem_cons.mp hx with hx | hx
        · subst hx; exact h2.1 sname x.1 h1.2.1
        · exact h2.2.1 x hx
      · exact fun hnd => h2.2.2 (h1.2.2 hnd)

theorem archive_stream_ok (sname : String) (im : Bool)
    (msgs : List (Int × Wire)) (db db' : ColdStore)
    (h : archive_stream sname im msgs db = .ok db') :
    (∀ n mid, hasCk db n mid = true → hasCk db' n mid = true) ∧
    (∀ m ∈ msgs.take MAX_EVENTS_PER_ARCHIVE_BATCH,
      hasCk db' sname m.1 = true) ∧
    (ckNodup db → ckNodup db') :=
  archiveFold_ok sname im (msgs.take MAX_EVENTS_PER_ARCHIVE_BATCH) db db' h

/-- C6: the archival batch is idempotent — running it a second time
over the same broker stream contents leaves the cold store unchanged,
and the (stream_name, broker_message_id) checkpoint keys remain
unique. -/
theorem claim_C6_archival_idempotent (st : RedisState) (db db' : ColdStore)
    (hnd : ckNodup db) (h : archive_batch st db = .ok db') :
    archive_batch st db' = .ok db' ∧ ckNodup db' := by
  unfold archive_batch at h
  cases h1 : archive_stream "stream:axon_1" false st.axon1 db with
  | error k => rw [h1] at h; simp at h
  | ok db1 =>
    rw [h1] at h
    dsimp only at h
    cases h2 : archive_stream "stream:axon_2" false st.axon2 db1 with
    | error k => rw [h2] at h; simp at h
    | ok db2 =>
      rw [h2] at h
      dsimp only at h
      cases h3 : archive_stream "stream:axon_3" false st.axon3 db2 with
      | error k => rw [h3] at h; simp at h
      | ok db3 =>
        rw [h3] at h
        dsimp only at h
        have p1 := archive_stream_ok _ _ _ _ _ h1
        have p2 := archive_stream_ok _ _ _ _ _ h2
        have p3 := archive_stream_ok _ _ _ _ _ h3
        have p4 := archive_stream_ok _ _ _ _ _ h
        have hnd' : ckNodup db' :=
          p4.2.2 (p3.2.2 (p2.2.2 (p1.2.2 hnd)))
        refine ⟨?_, hnd'⟩
        have c1 : ∀ m ∈ st.axon1.take MAX_EVENTS_PER_ARCHIVE_BATCH,
            hasCk db' "stream:axon_1" m.1 = true :=
          fun m hm => p4.1 _ _ (p3.1 _ _ (p2.1 _ _ (p1.2.1 m hm)))
        have c2 : ∀ m ∈ st.axon2.take MAX_EVENTS_PER_ARCHIVE_BATCH,
            hasCk db' "stream:axon_2" m.1 = true :=
          fun m hm => p4.1 _ _ (p3.1 _ _ (p2.2.1 m hm))
        have c3 : ∀ m ∈ st.axon3.take MAX_EVENTS_PER_ARCHIVE_BATCH,
            hasCk db' "stream:axon_3" m.1 = true :=
          fun m hm => p4.1 _ _ (p3.2.1 m hm)
        have c4 : ∀ m ∈ st.integrated.take MAX_EVENTS_PER_ARCHIVE_BATCH,
            hasCk db' "stream:integrated_events" m.1 = true :=
          fun m hm => p4.2.1 m hm
        unfold archive_batch archive_stream
        rw [archiveFold_skip _ _ _ _ c1]
        dsimp only
        rw [archiveFold_skip _ _ _ _ c2]
        dsimp only
        rw [archiveFold_skip _ _ _ _ c3]
        dsimp only
        rw [archiveFold_skip _ _ _ _ c4]

/-- Witness for C6: archiving the five events a second time changes
nothing, checkpoint keys stay unique, and the single run yields 5 mono
rows and 5 checkpoints. -/
theorem claim_C6_witness :
    archive_batch arcSt arcDb1 = .ok arcDb1 ∧ ckNodup arcDb1 ∧
    arcDb1.monoRows.length = 5 ∧ arcDb1.checkpoints.length = 5 :=
  ⟨(claim_C6_archival_idempotent arcSt arcDb0 arcDb1 List.Pairwise.nil rfl).1,
   (claim_C6_archival_idempotent arcSt arcDb0 arcDb1 List.Pairwise.nil rfl).2,
   by decide, by decide⟩

/-- C8 counterexample: it is not the case that a message removed from
a stream by the retention pass was previously recorded in the archive
checkpoints.  The cleanup step takes no archival state into account
at all: with an empty checkpoint table, a message older than the
retention cutoff is trimmed anyway. -/
theorem claim_C8_counterexample :
    ¬ (∀ (now_ms : Int) (st : RedisState) (db : ColdStore),
        ∀ m ∈ st.axon1, m ∉ (cleanup_old_redis_data now_ms st).axon1 →
          ∃ c ∈ db.checkpoints,
            c.stream_name = "stream:axon_1" ∧ c.redis_message_id = m.1) := by
  intro h
  have hrm : ((1 : Int), ([] : Wire)) ∉
      (cleanup_old_redis_data 1000000
        { axon1 := [(1, [])], axon2 := [], axon3 := [], integrated := [] }).axon1 := by
    decide
  obtain ⟨c, hc, _⟩ := h 1000000
    { axon1 := [(1, [])], axon2 := [], axon3 := [], integrated := [] }
    { monoRows := [], multiRows := [], checkpoints := [] }
    (1, []) (by decide) hrm
  simp at hc

/-- C8 amended: the retention pass trims by the wall-clock cutoff
alone — a broker message survives cleanup exactly when its id is at
least now minus the configured TTL, independent of whether it was
ever archived (cleanup_old_redis_data consults no archival state). -/
theorem claim_C8_amended (now_ms : Int) (st : RedisState) :
    (∀ m ∈ st.axon1, (m ∈ (cleanup_old_redis_data now_ms st).axon1 ↔
        now_ms - REDIS_TTL_SECONDS * 1000 ≤ m.1)) ∧
    (∀ m ∈ st.axon2, (m ∈ (cleanup_old_redis_data now_ms st).axon2 ↔
        now_ms - REDIS_TTL_SECONDS * 1000 ≤ m.1)) ∧
    (∀ m ∈ st.axon3, (m ∈ (cleanup_old_redis_data now_ms st).axon3 ↔
        now_ms - REDIS_TTL_SECONDS * 1000 ≤ m.1)) ∧
    (∀ m ∈ st.integrated, (m ∈ (cleanup_old_redis_data now_ms st).integrated ↔
        now_ms - REDIS_TTL_SECONDS * 1000 ≤ m.1)) := by
  refine ⟨?_, ?_, ?_, ?_⟩ <;>
    (intro m hm
     simp [cleanup_old_redis_data, xtrimMinId, List.mem_filter, hm])

/-- Witness for C8's amended statement at a concrete broker state. -/
theorem claim_C8_amended_witness :
    (∀ m ∈ [((1 : Int), ([] : Wire))],
      (m ∈ (cleanup_old_redis_data 1000000
        { axon1 := [(1, [])], axon2 := [], axon3 := [],
          integrated := [] }).axon1 ↔
        1000000 - REDIS_TTL_SECONDS * 1000 ≤ m.1)) ∧
    (∀ m ∈ ([] : List (Int × Wire)),
      (m ∈ (cleanup_old_redis_data 1000000
        { axon1 := [(1, [])], axon2 := [], axon3 := [],
          integrated := [] }).axon2 ↔
        1000000 - REDIS_TTL_SECONDS * 1000 ≤ m.1)) ∧
    (∀ m ∈ ([] : List (Int × Wire)),
      (m ∈ (cleanup_old_redis_data 1000000
        { axon1 := [(1, [])], axon2 := [], axon3 := [],
          integrated := [] }).axon3 ↔
        1000000 - REDIS_TTL_SECONDS * 1000 ≤ m.1)) ∧
    (∀ m ∈ ([] : List (Int × Wire)),
      (m ∈ (cleanup_old_redis_data 1000000
        { axon1 := [(1, [])], axon2 := [], axon3 := [],
          integrated := [] }).integrated ↔
        1000000 - REDIS_TTL_SECONDS * 1000 ≤ m.1)) :=
  claim_C8_amended 1000000
    { axon1 := [(1, [])], axon2 := [], axon3 := [], integrated := [] }
